import Mathlib

set_option autoImplicit false

/-!
Shallow embedding of the client-side real-time messaging subsystem of the
Affinity frontend: the `MessageCache` class (MessageCache.ts), the WebSocket
connection manager (`peroxo-context.tsx`) and the canonical conversation-id
derivation (`ChatBox.tsx` / `use-messageCache.ts`).

JavaScript `Date` values are modelled as `Nat` (milliseconds), `Map` objects
as association lists, `localStorage` as an association list, and the
nondeterministic `generateMessageId()` as an explicitly passed string.
The deferred `setTimeout(() => saveChatToStorage(id), 0)` persistence is
applied immediately; it copies the freshly written in-memory entry, so the
observable per-conversation bucket contents are unaffected by the deferral.
-/

namespace Affinity

/-- `status` field of a chat message: `"sent" | "pending" | "failed"`. -/
inductive MsgStatus where
  | sent
  | pending
  | failed
deriving DecidableEq, Repr

/-- `ChatMessage` from MessageCache.ts.  The TS interface has optional
`from`/`to` fields and an open index signature; the fields the messaging
subsystem reads are modelled. -/
structure ChatMessage where
  id : String
  from_ : String
  to_ : String
  content : String
  incoming : Bool
  timestamp : Nat
  status : MsgStatus
deriving DecidableEq, Repr

/-- `Partial<ChatMessage>` (the `serverData` patch of `updateMessageStatus`):
each field is either absent (`none`) or an overriding value, applied with
`Object.assign` semantics. -/
structure MsgPatch where
  id : Option String
  from_ : Option String
  to_ : Option String
  content : Option String
  incoming : Option Bool
  timestamp : Option Nat
  status : Option MsgStatus
deriving DecidableEq, Repr

/-- The empty patch `{}` (the default `serverData` argument). -/
def MsgPatch.empty : MsgPatch := ⟨none, none, none, none, none, none, none⟩

/-- `Object.assign(message, serverData)`: fields present in the patch
overwrite the message's fields. -/
def applyPatch (m : ChatMessage) (p : MsgPatch) : ChatMessage :=
  { id := p.id.getD m.id
    from_ := p.from_.getD m.from_
    to_ := p.to_.getD m.to_
    content := p.content.getD m.content
    incoming := p.incoming.getD m.incoming
    timestamp := p.timestamp.getD m.timestamp
    status := p.status.getD m.status }

/-- `ChatData`: the per-conversation record with the three buckets
(confirmed `messages`, `pendingMessages`, `failedMessages`). -/
structure ChatData where
  chatId : String
  messages : List ChatMessage
  pendingMessages : List ChatMessage
  failedMessages : List ChatMessage
deriving DecidableEq, Repr

/-- The fresh record `{ chatId, messages: [], pendingMessages: [], failedMessages: [] }`. -/
def emptyChatData (chatId : String) : ChatData := ⟨chatId, [], [], []⟩

/-- `ChatMetadata` from MessageCache.ts. -/
structure ChatMetadata where
  lastAccessed : Nat
  lastMessageTime : Nat
  messageCount : Nat
  unreadCount : Nat
  hasUnread : Bool
  isPinned : Bool
  hasMore : Bool
  nextCursor : Option String
  historyLoaded : Bool
deriving DecidableEq, Repr

/-- The default metadata returned by `getChatMetadata` for an unknown
conversation (lines 327-341 of MessageCache.ts). -/
def defaultMetadata (now : Nat) : ChatMetadata :=
  { lastAccessed := now
    lastMessageTime := now
    messageCount := 0
    unreadCount := 0
    hasUnread := false
    isPinned := false
    hasMore := true
    nextCursor := none
    historyLoaded := false }

/-- `Partial<ChatMetadata>` as passed to `updateChatMetadata`. -/
structure MetaPatch where
  lastMessageTime : Option Nat
  messageCount : Option Nat
  unreadCount : Option Nat
  hasUnread : Option Bool
  hasMore : Option Bool
  nextCursor : Option (Option String)
  historyLoaded : Option Bool
deriving DecidableEq, Repr

/-- `{ ...existing, ...updates, lastAccessed: new Date() }`. -/
def applyMetaPatch (m : ChatMetadata) (p : MetaPatch) (now : Nat) : ChatMetadata :=
  { lastAccessed := now
    lastMessageTime := p.lastMessageTime.getD m.lastMessageTime
    messageCount := p.messageCount.getD m.messageCount
    unreadCount := p.unreadCount.getD m.unreadCount
    hasUnread := p.hasUnread.getD m.hasUnread
    isPinned := m.isPinned
    hasMore := p.hasMore.getD m.hasMore
    nextCursor := p.nextCursor.getD m.nextCursor
    historyLoaded := p.historyLoaded.getD m.historyLoaded }

/-- Association-list lookup (JS `Map.get` / keyed `localStorage` read). -/
def lookupA {v : Type} : List (String × v) → String → Option v
  | [], _ => none
  | (k', x) :: rest, k => if k' = k then some x else lookupA rest k

/-- Association-list update (JS `Map.set`: replace if present, else append). -/
def setA {v : Type} : List (String × v) → String → v → List (String × v)
  | [], k, x => [(k, x)]
  | (k', y) :: rest, k, x =>
    if k' = k then (k, x) :: rest else (k', y) :: setA rest k x

/-- Association-list removal (JS `Map.delete`). -/
def eraseA {v : Type} : List (String × v) → String → List (String × v)
  | [], _ => []
  | (k', y) :: rest, k => if k' = k then rest else (k', y) :: eraseA rest k

/-- JS `arr.slice(-n)`: the last `n` elements, except that `slice(-0)`
is `slice(0)`, i.e. the whole array. -/
def sliceLast {α : Type} (n : Nat) (l : List α) : List α :=
  if n = 0 then l else l.drop (l.length - n)

/-- `arr.some(m => m.id === i)`. -/
def hasId (l : List ChatMessage) (i : String) : Bool :=
  l.any (fun m => m.id = i)

/-- The duplicate check of `addMessage` (lines 186-190): is the id present
in any of the three buckets? -/
def ChatData.containsId (cd : ChatData) (i : String) : Bool :=
  hasId cd.messages i || hasId cd.pendingMessages i || hasId cd.failedMessages i

/-- All message ids of a conversation record, across the three buckets. -/
def ChatData.allIds (cd : ChatData) : List String :=
  cd.messages.map (fun m => m.id) ++ cd.pendingMessages.map (fun m => m.id)
    ++ cd.failedMessages.map (fun m => m.id)

/-- `findIndex` + `splice(index, 1)` on a message list: the first message
with the given id together with the list with that occurrence removed. -/
def extractById (i : String) : List ChatMessage → Option (ChatMessage × List ChatMessage)
  | [] => none
  | m :: rest =>
    if m.id = i then some (m, rest)
    else
      match extractById i rest with
      | none => none
      | some (x, rest') => some (x, m :: rest')

/-- The bucket-routing block of `addMessage` (lines 197-206): push into the
bucket matching the status; the confirmed bucket is trimmed to the last
`maxMessagesPerChat` entries when it overflows. -/
def routeMessage (maxPerChat : Nat) (cd : ChatData) (m : ChatMessage) : ChatData :=
  match m.status with
  | .pending => { cd with pendingMessages := cd.pendingMessages ++ [m] }
  | .failed => { cd with failedMessages := cd.failedMessages ++ [m] }
  | .sent =>
    let ms := cd.messages ++ [m]
    { cd with messages := if ms.length > maxPerChat then sliceLast maxPerChat ms else ms }

/-- The `MessageCache` state: options, the in-memory tier (`memoryCache`),
the durable tier (`localStorage`, keyed `chat_<id>`), and the metadata map. -/
structure MessageCache where
  maxMessagesPerChat : Nat
  memoryCache : List (String × ChatData)
  storage : List (String × ChatData)
  chatMetadata : List (String × ChatMetadata)
deriving DecidableEq, Repr

/-- A freshly constructed cache with the given `maxMessagesPerChat`. -/
def emptyCache (maxPerChat : Nat) : MessageCache := ⟨maxPerChat, [], [], []⟩

/-- `this.memoryCache.get(chatId) || this.loadChatFromStorage(chatId)`
(the JSON round-trip of `loadChatFromStorage` is the identity here). -/
def MessageCache.loadChat (c : MessageCache) (chatId : String) : Option ChatData :=
  match lookupA c.memoryCache chatId with
  | some cd => some cd
  | none => lookupA c.storage chatId

/-- The conversation record `addMessage` and friends operate on: the loaded
record, or a fresh empty one. -/
def MessageCache.chatOf (c : MessageCache) (chatId : String) : ChatData :=
  (c.loadChat chatId).getD (emptyChatData chatId)

/-- `getChatMetadata` (lines 327-341); `now` stands for the `new Date()`
used in the default. -/
def MessageCache.getChatMetadata (c : MessageCache) (chatId : String) (now : Nat) : ChatMetadata :=
  (lookupA c.chatMetadata chatId).getD (defaultMetadata now)

/-- `updateChatMetadata` (lines 343-348). -/
def MessageCache.updateChatMetadata (c : MessageCache) (chatId : String) (p : MetaPatch)
    (now : Nat) : MessageCache :=
  let updated := applyMetaPatch (c.getChatMetadata chatId now) p now
  { c with chatMetadata := setA c.chatMetadata chatId updated }

/-- `saveChatToStorage` (lines 378-391): persist the in-memory record, if any
(the quota path only ever deletes whole conversations and is not modelled). -/
def MessageCache.saveChatToStorage (c : MessageCache) (chatId : String) : MessageCache :=
  match lookupA c.memoryCache chatId with
  | none => c
  | some cd => { c with storage := setA c.storage chatId cd }

/-- The body of `addMessage` after the id/timestamp defaulting (lines
178-217): duplicate check across the three buckets, routing, metadata
update and deferred persistence. -/
def MessageCache.addMessageCore (c : MessageCache) (chatId : String) (m : ChatMessage)
    (now : Nat) : Bool × MessageCache :=
  let cd := c.chatOf chatId
  if cd.containsId m.id then (true, c)
  else
    let cd' := routeMessage c.maxMessagesPerChat cd m
    let c1 : MessageCache := { c with memoryCache := setA c.memoryCache chatId cd' }
    let c2 := c1.updateChatMetadata chatId
      ⟨some now, some cd'.messages.length, none, some m.incoming, none, none, none⟩ now
    (true, c2.saveChatToStorage chatId)

/-- `addMessage` (lines 167-218).  `genId` stands for the result of
`generateMessageId()` (used when `message.id` is falsy), `now` for
`new Date()`.  Returns the boolean result together with the new state. -/
def MessageCache.addMessage (c : MessageCache) (chatId : String) (msg : ChatMessage)
    (genId : String) (now : Nat) : Bool × MessageCache :=
  if chatId = "" then (false, c)
  else c.addMessageCore chatId { msg with id := if msg.id = "" then genId else msg.id } now

/-- `addMessages` (lines 115-164), the bulk history merge.  `genIds i` stands
for the `generateMessageId()` result for the i-th element with a falsy id. -/
def MessageCache.addMessages (c : MessageCache) (chatId : String) (msgs : List ChatMessage)
    (prepend : Bool) (genIds : Nat → String) (now : Nat) : Bool × MessageCache :=
  if chatId = "" ∨ msgs.isEmpty then (false, c)
  else
    let cd := c.chatOf chatId
    let newMessages := msgs.enum.map
      (fun p => { p.2 with id := if p.2.id = "" then genIds p.1 else p.2.id })
    let uniqueMessages := newMessages.filter (fun m => ¬ hasId cd.messages m.id)
    if uniqueMessages.isEmpty then (true, c)
    else
      let merged := if prepend then uniqueMessages ++ cd.messages
        else cd.messages ++ uniqueMessages
      let trimmed := if merged.length > c.maxMessagesPerChat * 2
        then sliceLast (c.maxMessagesPerChat * 2) merged else merged
      let cd' : ChatData := { cd with messages := trimmed }
      let c1 : MessageCache := { c with memoryCache := setA c.memoryCache chatId cd' }
      let latestTs := ((newMessages.getLast?).map (fun m => m.timestamp)).getD now
      let c2 := c1.updateChatMetadata chatId
        ⟨some latestTs, some cd'.messages.length, none, none, none, none, none⟩ now
      (true, c2.saveChatToStorage chatId)

/-- The bucket move of `updateMessageStatus` (lines 232-237): splice the hit
out of pending, set its status, merge `serverData`, and push it into
`messages` (for `"sent"`) or `failedMessages` (otherwise). -/
def movePending (cd : ChatData) (m0 : ChatMessage) (pend' : List ChatMessage)
    (newStatus : MsgStatus) (serverData : MsgPatch) : ChatData :=
  if newStatus = .sent
  then { cd with pendingMessages := pend', messages := cd.messages ++ [applyPatch { m0 with status := newStatus } serverData] }
  else { cd with pendingMessages := pend', failedMessages := cd.failedMessages ++ [applyPatch { m0 with status := newStatus } serverData] }

/-- `updateMessageStatus` (lines 221-245): only searches `pendingMessages`;
on a hit, performs the `movePending` bucket move and persists. -/
def MessageCache.updateMessageStatus (c : MessageCache) (chatId messageId : String)
    (newStatus : MsgStatus) (serverData : MsgPatch) : Bool × MessageCache :=
  match c.loadChat chatId with
  | none => (false, c)
  | some cd =>
    match extractById messageId cd.pendingMessages with
    | none => (false, c)
    | some (m0, pend') =>
      let cd' := movePending cd m0 pend' newStatus serverData
      let c1 : MessageCache := { c with memoryCache := setA c.memoryCache chatId cd' }
      (true, c1.saveChatToStorage chatId)

/-- `markChatAsRead` (lines 350-352). -/
def MessageCache.markChatAsRead (c : MessageCache) (chatId : String) (now : Nat) : MessageCache :=
  c.updateChatMetadata chatId ⟨none, none, some 0, some false, none, none, none⟩ now

/-- `clearChatMemory` (lines 311-316): flush to storage, evict from memory. -/
def MessageCache.clearChatMemory (c : MessageCache) (chatId : String) : MessageCache :=
  match lookupA c.memoryCache chatId with
  | none => c
  | some _ =>
    let c1 := c.saveChatToStorage chatId
    { c1 with memoryCache := eraseA c1.memoryCache chatId }

/-- `preloadChat` (lines 318-325): hydrate the hot tier from storage. -/
def MessageCache.preloadChat (c : MessageCache) (chatId : String) : MessageCache :=
  match lookupA c.memoryCache chatId with
  | some _ => c
  | none =>
    match lookupA c.storage chatId with
    | none => c
    | some cd => { c with memoryCache := setA c.memoryCache chatId cd }

/-- Sequential `addMessage` calls for a list of messages (the "N sequential
addMessage calls" of the eviction property). -/
def MessageCache.addMessageRun (c : MessageCache) (chatId : String) (msgs : List ChatMessage)
    (now : Nat) : MessageCache :=
  msgs.foldl (fun acc m => (acc.addMessage chatId m "" now).2) c

/-- The per-step evolution of the confirmed bucket under sequential confirmed
inserts: push, then trim to the last `cap` entries on overflow. -/
def trimFold (cap : Nat) (init : List ChatMessage) (msgs : List ChatMessage) : List ChatMessage :=
  msgs.foldl (fun a m =>
    let l := a ++ [m]
    if l.length > cap then sliceLast cap l else l) init

/-- Dedup invariant of one conversation record: the ids across the three
buckets are pairwise distinct (so any id lives in at most one bucket, once). -/
def ChatData.dedupInv (cd : ChatData) : Prop := cd.allIds.Nodup

/-- The claimed per-conversation property: a given id appears in at most one
of the three buckets. -/
def ChatData.atMostOneBucket (cd : ChatData) : Prop :=
  ∀ i : String,
    ¬(hasId cd.messages i = true ∧ hasId cd.pendingMessages i = true) ∧
    ¬(hasId cd.messages i = true ∧ hasId cd.failedMessages i = true) ∧
    ¬(hasId cd.pendingMessages i = true ∧ hasId cd.failedMessages i = true)

/-- Dedup invariant of the whole cache: every record in either tier
satisfies the per-conversation invariant. -/
def MessageCache.dedupInv (c : MessageCache) : Prop :=
  (∀ e ∈ c.memoryCache, ChatData.dedupInv e.2) ∧ (∀ e ∈ c.storage, ChatData.dedupInv e.2)

/-- Number of copies of an id across the three buckets of a record. -/
def ChatData.idCount (cd : ChatData) (i : String) : Nat :=
  cd.messages.countP (fun m => m.id = i) + cd.pendingMessages.countP (fun m => m.id = i)
    + cd.failedMessages.countP (fun m => m.id = i)

/-! ### Connection manager (peroxo-context.tsx, first revision) -/

/-- `connectionStatus` values. -/
inductive ConnStatus where
  | connecting
  | connected
  | disconnected
  | error
deriving DecidableEq, Repr

def MAX_RECONNECT_ATTEMPTS : Nat := 5

def BASE_RECONNECT_INTERVAL : Nat := 1500

/-- The connection-manager state observable by the reconnect logic:
status, surfaced error, attempt counter, and the delay (ms) of the pending
reconnect timer, if one is scheduled. -/
structure ConnState where
  connectionStatus : ConnStatus
  error : Option String
  reconnectAttempts : Nat
  reconnectTimer : Option Nat
deriving DecidableEq, Repr

/-- The `ws.onclose` handler (lines 162-182): mark disconnected; on an
abnormal close (`code != 1000`, not manual) with credentials present,
increment the attempt counter and either schedule a reconnect after
`BASE_RECONNECT_INTERVAL * 2 ^ prev` ms (while within the cap) or surface
the terminal max-attempts error (scheduling nothing). -/
def onCloseEvent (s : ConnState) (code : Nat) (manualClose : Bool) (hasAuthKey : Bool) :
    ConnState :=
  let s1 : ConnState := { s with connectionStatus := .disconnected }
  if manualClose = true ∨ code = 1000 then s1
  else if hasAuthKey = false then s1
  else
    let next := s1.reconnectAttempts + 1
    if next ≤ MAX_RECONNECT_ATTEMPTS then
      { s1 with reconnectAttempts := next
                reconnectTimer := some (BASE_RECONNECT_INTERVAL * 2 ^ s1.reconnectAttempts) }
    else
      { s1 with reconnectAttempts := next
                error := some "Maximum reconnection attempts reached" }

/-- `WebSocket.OPEN`. -/
def WebSocketOPEN : Nat := 1

/-- The socket handle, reduced to its `readyState`. -/
structure Socket where
  readyState : Nat
deriving DecidableEq, Repr

/-- Transport state: the optional socket handle and the frames pushed on the
wire so far. -/
structure Transport where
  socket : Option Socket
  wire : List String
deriving DecidableEq, Repr

/-- Is the underlying socket present and open? -/
def Transport.isOpen (t : Transport) : Bool :=
  match t.socket with
  | none => false
  | some s => s.readyState = WebSocketOPEN

/-- `sendMessage` (lines 95-100): throw `'WebSocket is not connected'`
unless the socket exists and is OPEN; otherwise push the frame and
return `true`.  The state is returned alongside the outcome; there is no
queue anywhere in the state. -/
def sendMessage (t : Transport) (message : String) : Except String Bool × Transport :=
  match t.socket with
  | none => (Except.error "WebSocket is not connected", t)
  | some s =>
    if s.readyState ≠ WebSocketOPEN then (Except.error "WebSocket is not connected", t)
    else (Except.ok true, { t with wire := t.wire ++ [message] })

/-- The `ws.onmessage` fan-out loop (lines 144-153): each registered handler
is invoked on the parsed frame inside its own try/catch, so a thrown
exception (`Except.error`) is caught (collected) and iteration continues
with the remaining handlers. -/
def fanOut {E : Type} : List (String → Except E Unit) → String → List (Except E Unit)
  | [], _ => []
  | h :: rest, msg =>
    match h msg with
    | .error e => Except.error e :: fanOut rest msg
    | .ok u => Except.ok u :: fanOut rest msg

/-- The `console.error` log produced by the fan-out loop: the caught handler
exceptions, in order. -/
def fanOutLog {E : Type} (hs : List (String → Except E Unit)) (msg : String) : List E :=
  (fanOut hs msg).filterMap (fun r =>
    match r with
    | .error e => some e
    | .ok _ => none)

/-! ### Canonical conversation id (ChatBox.tsx lines 271-293,
use-messageCache.ts lines 158-167) -/

/-- `` `${Math.min(a,b)}_${Math.max(a,b)}` `` on the numeric user ids. -/
def canonicalChatId (a b : Int) : String :=
  toString (min a b) ++ "_" ++ toString (max a b)

/-- The full derivation: `none` stands for a missing participant or a
`Number(...)` conversion that produced `NaN`, in which case the code
returns `null`. -/
def deriveChatId (userId otherId : Option Int) : Option String :=
  match userId, otherId with
  | some a, some b => some (canonicalChatId a b)
  | _, _ => none

/-- A concrete message used by witnesses and counterexamples. -/
def mkMsg (i : String) (inc : Bool) (ts : Nat) (st : MsgStatus) : ChatMessage :=
  ⟨i, "1", "2", "hi", inc, ts, st⟩

/-! ## Theorems -/

/-! ### Association-list and counting lemmas -/

theorem lookupA_setA_self {v : Type} (l : List (String × v)) (k : String) (x : v) :
    lookupA (setA l k x) k = some x := by
  induction l with
  | nil => simp [setA, lookupA]
  | cons e rest ih =>
    obtain ⟨k', y⟩ := e
    by_cases h : k' = k <;> simp [setA, h, lookupA, ih]

theorem lookupA_mem {v : Type} {l : List (String × v)} {k : String} {x : v}
    (h : lookupA l k = some x) : (k, x) ∈ l := by
  induction l with
  | nil => simp [lookupA] at h
  | cons e rest ih =>
    obtain ⟨k', y⟩ := e
    by_cases hk : k' = k
    · simp [lookupA, hk] at h
      simp [hk, h]
    · simp [lookupA, hk] at h
      exact List.mem_cons_of_mem _ (ih h)

theorem mem_setA {v : Type} {l : List (String × v)} {k : String} {x : v} {e : String × v}
    (h : e ∈ setA l k x) : e ∈ l ∨ e = (k, x) := by
  induction l with
  | nil => simp [setA] at h; simp [h]
  | cons e' rest ih =>
    obtain ⟨k', y⟩ := e'
    by_cases hk : k' = k
    · simp [setA, hk] at h
      rcases h with h | h
      · right; simp [h]
      · left; exact List.mem_cons_of_mem _ h
    · simp [setA, hk] at h
      rcases h with h | h
      · left; simp [h]
      · rcases ih h with h' | h'
        · left; exact List.mem_cons_of_mem _ h'
        · right; exact h'

theorem mem_eraseA {v : Type} {l : List (String × v)} {k : String} {e : String × v}
    (h : e ∈ eraseA l k) : e ∈ l := by
  induction l with
  | nil => simp [eraseA] at h
  | cons e' rest ih =>
    obtain ⟨k', y⟩ := e'
    by_cases hk : k' = k
    · simp [eraseA, hk] at h
      exact List.mem_cons_of_mem _ h
    · simp [eraseA, hk] at h
      rcases h with h | h
      · simp [h]
      · exact List.mem_cons_of_mem _ (ih h)

theorem hasId_false_countP {l : List ChatMessage} {i : String} (h : hasId l i = false) :
    l.countP (fun m => m.id = i) = 0 := by
  rw [List.countP_eq_zero]
  intro a ha hp
  rw [hasId] at h
  have : l.any (fun m => m.id = i) = true := List.any_eq_true.mpr ⟨a, ha, hp⟩
  rw [h] at this
  exact Bool.false_ne_true this

theorem hasId_of_countP_pos {l : List ChatMessage} {i : String}
    (h : 0 < l.countP (fun m => m.id = i)) : hasId l i = true := by
  obtain ⟨a, ha, hp⟩ := List.countP_pos_iff.mp h
  exact List.any_eq_true.mpr ⟨a, ha, hp⟩

theorem countP_sliceLast_append {n : Nat} {l : List ChatMessage} {m : ChatMessage}
    {p : ChatMessage → Bool} (h0 : l.countP p = 0) (hm : p m = true) :
    (sliceLast n (l ++ [m])).countP p = 1 := by
  have hsingle : (l ++ [m]).countP p = 1 := by
    rw [List.countP_append, h0, List.countP_singleton, if_pos hm]
  unfold sliceLast
  by_cases hn : n = 0
  · rw [if_pos hn]; exact hsingle
  · rw [if_neg hn]
    have hk : (l ++ [m]).length - n ≤ l.length := by
      simp only [List.length_append, List.length_singleton]
      omega
    rw [List.drop_append_of_le_length hk, List.countP_append]
    have hdrop : (l.drop ((l ++ [m]).length - n)).countP p = 0 :=
      Nat.le_zero.mp (h0 ▸ (List.drop_sublist _ l).countP_le p)
    rw [hdrop, List.countP_singleton, if_pos hm]

/-- Routing a message whose id is fresh for the record yields exactly one
copy of that id across the three buckets, and the id is then present. -/
theorem routeMessage_fresh_spec (maxPerChat : Nat) (cd : ChatData) (m : ChatMessage)
    (hfresh : cd.containsId m.id = false) :
    (routeMessage maxPerChat cd m).idCount m.id = 1 ∧
    (routeMessage maxPerChat cd m).containsId m.id = true := by
  have h3 : hasId cd.messages m.id = false ∧ hasId cd.pendingMessages m.id = false ∧
      hasId cd.failedMessages m.id = false := by
    rw [ChatData.containsId] at hfresh
    simpa [and_assoc] using hfresh
  have c1 := hasId_false_countP h3.1
  have c2 := hasId_false_countP h3.2.1
  have c3 := hasId_false_countP h3.2.2
  have hpm : (decide (m.id = m.id)) = true := by simp
  cases hst : m.status with
  | pending =>
    constructor
    · simp [routeMessage, hst, ChatData.idCount, List.countP_append, c1, c2, c3,
        List.countP_singleton]
    · simp [routeMessage, hst, ChatData.containsId, hasId]
  | failed =>
    constructor
    · simp [routeMessage, hst, ChatData.idCount, List.countP_append, c1, c2, c3,
        List.countP_singleton]
    · simp [routeMessage, hst, ChatData.containsId, hasId]
  | sent =>
    have hcnt : ((cd.messages ++ [m]).countP (fun x => decide (x.id = m.id))) = 1 := by
      rw [List.countP_append, c1, List.countP_singleton, if_pos hpm]
    by_cases hover : maxPerChat < cd.messages.length + 1
    · have hs := countP_sliceLast_append (n := maxPerChat) (l := cd.messages) (m := m)
        (p := fun x => decide (x.id = m.id)) c1 hpm
      have hpos : hasId (sliceLast maxPerChat (cd.messages ++ [m])) m.id = true :=
        hasId_of_countP_pos (by rw [hs]; exact Nat.one_pos)
      constructor
      · simp [routeMessage, hst, ChatData.idCount, hover, hs, c2, c3]
      · simp [routeMessage, hst, ChatData.containsId, hover, hpos]
    · have hpos : hasId (cd.messages ++ [m]) m.id = true :=
        hasId_of_countP_pos (by rw [hcnt]; exact Nat.one_pos)
      constructor
      · simp [routeMessage, hst, ChatData.idCount, hover, hcnt, c2, c3]
      · simp [routeMessage, hst, ChatData.containsId, hover, hpos]

theorem chatOf_eq_of_lookup {c : MessageCache} {chatId : String} {cd : ChatData}
    (h : lookupA c.memoryCache chatId = some cd) : c.chatOf chatId = cd := by
  simp [MessageCache.chatOf, MessageCache.loadChat, h]

theorem getChatMetadata_eq_of_lookup {c : MessageCache} {chatId : String}
    {md : ChatMetadata} (h : lookupA c.chatMetadata chatId = some md) (n0 : Nat) :
    c.getChatMetadata chatId n0 = md := by
  simp [MessageCache.getChatMetadata, h]

/-- Writing a record into the hot tier and persisting it makes it the
conversation's visible record. -/
theorem chatOf_setMemory_save (c : MessageCache) (chatId : String) (cd : ChatData) :
    ((({ c with memoryCache := setA c.memoryCache chatId cd }
        : MessageCache)).saveChatToStorage chatId).chatOf chatId = cd := by
  have hlook : lookupA (setA c.memoryCache chatId cd) chatId = some cd :=
    lookupA_setA_self _ _ _
  unfold MessageCache.saveChatToStorage
  simp only [hlook]
  exact chatOf_eq_of_lookup hlook

/-- Behaviour of a successful (non-duplicate) `addMessage` call: it returns
`true`, routes the message into the bucket matching its status, and merges
the metadata update. -/
theorem addMessage_nondup_spec (c : MessageCache) (chatId : String) (msg : ChatMessage)
    (g : String) (now : Nat) (hchat : chatId ≠ "") (hid : msg.id ≠ "")
    (hfresh : (c.chatOf chatId).containsId msg.id = false) :
    (c.addMessage chatId msg g now).1 = true ∧
    ((c.addMessage chatId msg g now).2).chatOf chatId
        = routeMessage c.maxMessagesPerChat (c.chatOf chatId) msg ∧
    (∀ n0 : Nat, ((c.addMessage chatId msg g now).2).getChatMetadata chatId n0
        = applyMetaPatch (c.getChatMetadata chatId now)
            ⟨some now,
             some (routeMessage c.maxMessagesPerChat (c.chatOf chatId) msg).messages.length,
             none, some msg.incoming, none, none, none⟩ now) ∧
    ((c.addMessage chatId msg g now).2).maxMessagesPerChat = c.maxMessagesPerChat := by
  have hm : ({ msg with id := if msg.id = "" then g else msg.id } : ChatMessage) = msg := by
    rw [if_neg hid]
  unfold MessageCache.addMessage MessageCache.addMessageCore
  rw [if_neg hchat, hm]
  simp only [hfresh, Bool.false_eq_true, if_false]
  set cd' := routeMessage c.maxMessagesPerChat (c.chatOf chatId) msg with hcd'
  set c1 : MessageCache := { c with memoryCache := setA c.memoryCache chatId cd' } with hc1
  have hlook1 : lookupA c1.memoryCache chatId = some cd' := lookupA_setA_self _ _ _
  set c2 := c1.updateChatMetadata chatId
      ⟨some now, some cd'.messages.length, none, some msg.incoming, none, none, none⟩ now
      with hc2
  have hmem2 : c2.memoryCache = c1.memoryCache := rfl
  have hsave : c2.saveChatToStorage chatId
      = { c2 with storage := setA c2.storage chatId cd' } := by
    rw [MessageCache.saveChatToStorage, hmem2, hlook1]
  refine ⟨trivial, ?_, ?_, ?_⟩
  · rw [hsave]
    exact chatOf_eq_of_lookup hlook1
  · intro n0
    rw [hsave]
    exact getChatMetadata_eq_of_lookup (lookupA_setA_self _ _ _) n0
  · rw [hsave]; rfl

/-- A duplicate `addMessage` call (the id already lives in one of the three
buckets) returns `true` and leaves the whole cache state unchanged. -/
theorem addMessage_dup_spec (c : MessageCache) (chatId : String) (msg : ChatMessage)
    (g : String) (now : Nat) (hchat : chatId ≠ "") (hid : msg.id ≠ "")
    (hdup : (c.chatOf chatId).containsId msg.id = true) :
    c.addMessage chatId msg g now = (true, c) := by
  have hm : ({ msg with id := if msg.id = "" then g else msg.id } : ChatMessage) = msg := by
    rw [if_neg hid]
  unfold MessageCache.addMessage MessageCache.addMessageCore
  rw [if_neg hchat, hm]
  simp only [hdup, if_true]

/-- C1: calling `addMessage` twice with the same (fresh) message id returns
`true` both times and leaves exactly one copy of that id across the
confirmed, pending and failed buckets of the conversation, whatever bucket
the first call placed it in. -/
theorem addMessage_idempotent (c : MessageCache) (chatId : String)
    (m1 m2 : ChatMessage) (g1 g2 : String) (n1 n2 : Nat)
    (hchat : chatId ≠ "") (hid : m1.id ≠ "") (hid2 : m2.id = m1.id)
    (hfresh : (c.chatOf chatId).containsId m1.id = false) :
    (c.addMessage chatId m1 g1 n1).1 = true ∧
    (((c.addMessage chatId m1 g1 n1).2).addMessage chatId m2 g2 n2).1 = true ∧
    (((((c.addMessage chatId m1 g1 n1).2).addMessage chatId m2 g2 n2).2).chatOf
        chatId).idCount m1.id = 1 := by
  obtain ⟨hr1, hcd1, -, -⟩ := addMessage_nondup_spec c chatId m1 g1 n1 hchat hid hfresh
  obtain ⟨hcount, hcontains⟩ :=
    routeMessage_fresh_spec c.maxMessagesPerChat (c.chatOf chatId) m1 hfresh
  have hid2' : m2.id ≠ "" := by rw [hid2]; exact hid
  have hdup : (((c.addMessage chatId m1 g1 n1).2).chatOf chatId).containsId m2.id = true := by
    rw [hcd1, hid2]; exact hcontains
  have h2 := addMessage_dup_spec ((c.addMessage chatId m1 g1 n1).2) chatId m2 g2 n2
    hchat hid2' hdup
  refine ⟨hr1, ?_, ?_⟩
  · rw [h2]
  · rw [h2]
    show ((((c.addMessage chatId m1 g1 n1).2)).chatOf chatId).idCount m1.id = 1
    rw [hcd1]
    exact hcount

/-- Witness for C1: inserting a pending message with id "m1" into an empty
cache and re-adding the same id as a sent message succeeds twice and leaves
one copy. -/
theorem addMessage_idempotent_witness :
    (((emptyCache 100).chatOf "1_2").containsId "m1" = false) ∧
    ((((((emptyCache 100).addMessage "1_2" (mkMsg "m1" false 0 .pending) "g" 0).2).addMessage
        "1_2" (mkMsg "m1" true 1 .sent) "h" 1).2).chatOf "1_2").idCount "m1" = 1 :=
  ⟨by decide,
   (addMessage_idempotent (emptyCache 100) "1_2" (mkMsg "m1" false 0 .pending)
      (mkMsg "m1" true 1 .sent) "g" "h" 0 1 (by decide) (by decide) rfl (by decide)).2.2⟩

/-- `Object.assign(message, {})` is the identity. -/
theorem applyPatch_empty (m : ChatMessage) : applyPatch m MsgPatch.empty = m := rfl

/-- C9: when the pending bucket holds a message with the requested id,
`updateMessageStatus` returns `true`, removes that message from the pending
bucket and — for every `newStatus` other than `"sent"`, including
`"pending"` itself — appends it to the *failed* bucket with its `status`
field set to `newStatus`; only `newStatus = "sent"` routes it into the
confirmed bucket. -/
theorem updateMessageStatus_routes (c : MessageCache) (chatId mid : String)
    (st : MsgStatus) (cd : ChatData) (m0 : ChatMessage) (pend' : List ChatMessage)
    (hload : c.loadChat chatId = some cd)
    (hx : extractById mid cd.pendingMessages = some (m0, pend')) :
    (c.updateMessageStatus chatId mid st MsgPatch.empty).1 = true ∧
    (st ≠ .sent → ((c.updateMessageStatus chatId mid st MsgPatch.empty).2).chatOf chatId
        = { cd with pendingMessages := pend',
                    failedMessages := cd.failedMessages ++ [{ m0 with status := st }] }) ∧
    (st = .sent → ((c.updateMessageStatus chatId mid st MsgPatch.empty).2).chatOf chatId
        = { cd with pendingMessages := pend',
                    messages := cd.messages ++ [{ m0 with status := st }] }) := by
  unfold MessageCache.updateMessageStatus
  simp only [hload, hx]
  refine ⟨trivial, fun hne => ?_, fun hyes => ?_⟩
  · have hmove : movePending cd m0 pend' st MsgPatch.empty
        = { cd with pendingMessages := pend',
                    failedMessages := cd.failedMessages ++ [{ m0 with status := st }] } := by
      unfold movePending
      rw [applyPatch_empty, if_neg hne]
    rw [hmove] at *
    exact chatOf_setMemory_save c chatId _
  · have hmove : movePending cd m0 pend' st MsgPatch.empty
        = { cd with pendingMessages := pend',
                    messages := cd.messages ++ [{ m0 with status := st }] } := by
      unfold movePending
      rw [applyPatch_empty, if_pos hyes]
    rw [hmove] at *
    exact chatOf_setMemory_save c chatId _

/-- Witness for C9: retrying a concrete pending message with newStatus
`"pending"` moves it into the failed bucket (status `"pending"`). -/
theorem updateMessageStatus_routes_witness :
    ((((emptyCache 100).addMessage "1_2" (mkMsg "m1" false 0 .pending) "g" 0).2).updateMessageStatus
        "1_2" "m1" .pending MsgPatch.empty).1 = true ∧
    (((((emptyCache 100).addMessage "1_2" (mkMsg "m1" false 0 .pending) "g" 0).2).updateMessageStatus
        "1_2" "m1" .pending MsgPatch.empty).2).chatOf "1_2"
      = { chatId := "1_2", messages := [], pendingMessages := [],
          failedMessages := [mkMsg "m1" false 0 .pending] } := by
  have h := updateMessageStatus_routes
    (((emptyCache 100).addMessage "1_2" (mkMsg "m1" false 0 .pending) "g" 0).2)
    "1_2" "m1" .pending ⟨"1_2", [], [mkMsg "m1" false 0 .pending], []⟩
    (mkMsg "m1" false 0 .pending) [] (by decide) (by decide)
  exact ⟨h.1, by rw [h.2.1 (by decide)]; decide⟩

/-- C10 counterexample: with `hasUnread = true` from an earlier incoming
message, re-adding the same id as an *outgoing* message returns `true` but
takes the duplicate early-return, leaving `hasUnread = true` — so the claimed
unconditional "overwrites hasUnread to false" fails. -/
theorem addMessage_outgoing_unread_counterexample :
    ((((emptyCache 100).addMessage "1_2" (mkMsg "a" true 0 .sent) "g" 0).2.addMessage
        "1_2" (mkMsg "a" false 1 .sent) "h" 1).1 = true) ∧
    ((mkMsg "a" false 1 .sent).incoming = false) ∧
    (((((emptyCache 100).addMessage "1_2" (mkMsg "a" true 0 .sent) "g" 0).2.addMessage
        "1_2" (mkMsg "a" false 1 .sent) "h" 1).2.getChatMetadata "1_2" 2).hasUnread
      = true) := by
  refine ⟨?_, rfl, ?_⟩ <;> decide

/-- C10 (amended): a *non-duplicate* `addMessage` call with an outgoing
message (`incoming = false`) overwrites the conversation metadata's
`hasUnread` flag to `false`; metadata fields other than `lastAccessed`,
`lastMessageTime`, `messageCount` and `hasUnread` are unchanged. -/
theorem addMessage_outgoing_clears_unread (c : MessageCache) (chatId : String)
    (msg : ChatMessage) (g : String) (now n0 : Nat) (hchat : chatId ≠ "")
    (hid : msg.id ≠ "") (hout : msg.incoming = false)
    (hfresh : (c.chatOf chatId).containsId msg.id = false) :
    ((c.addMessage chatId msg g now).2).getChatMetadata chatId n0 =
      { c.getChatMetadata chatId now with
          lastAccessed := now
          lastMessageTime := now
          messageCount :=
            (routeMessage c.maxMessagesPerChat (c.chatOf chatId) msg).messages.length
          hasUnread := false } := by
  obtain ⟨-, -, hmeta, -⟩ := addMessage_nondup_spec c chatId msg g now hchat hid hfresh
  rw [hmeta n0, applyMetaPatch, hout]
  rfl

/-- Witness for C10 (amended): adding a fresh outgoing message to a cache
whose conversation is flagged unread clears the flag and keeps the other
fields. -/
theorem addMessage_outgoing_clears_unread_witness :
    (((((emptyCache 100).addMessage "1_2" (mkMsg "a" true 0 .sent) "g" 0).2).addMessage "1_2"
        (mkMsg "b" false 1 .sent) "h" 5).2).getChatMetadata "1_2" 9
      = { (((emptyCache 100).addMessage "1_2" (mkMsg "a" true 0 .sent) "g" 0).2).getChatMetadata
            "1_2" 5 with
          lastAccessed := 5
          lastMessageTime := 5
          messageCount :=
            (routeMessage
              (((emptyCache 100).addMessage "1_2" (mkMsg "a" true 0 .sent) "g" 0).2).maxMessagesPerChat
              ((((emptyCache 100).addMessage "1_2" (mkMsg "a" true 0 .sent) "g" 0).2).chatOf "1_2")
              (mkMsg "b" false 1 .sent)).messages.length
          hasUnread := false } :=
  addMessage_outgoing_clears_unread
    (((emptyCache 100).addMessage "1_2" (mkMsg "a" true 0 .sent) "g" 0).2)
    "1_2" (mkMsg "b" false 1 .sent) "h" 5 9 (by decide) (by decide) rfl (by decide)

/-! ### Eviction-bound lemmas (C5) -/

theorem sliceLast_sublist {α : Type} (n : Nat) (l : List α) : (sliceLast n l).Sublist l := by
  unfold sliceLast
  by_cases hn : n = 0
  · rw [if_pos hn]
  · rw [if_neg hn]
    exact List.drop_sublist _ l

theorem sliceLast_suffix {α : Type} (n : Nat) (l : List α) : (sliceLast n l).IsSuffix l := by
  unfold sliceLast
  by_cases hn : n = 0
  · rw [if_pos hn]
  · rw [if_neg hn]
    exact List.drop_suffix _ l

theorem sliceLast_length {α : Type} {n : Nat} (hn : n ≠ 0) (l : List α) :
    (sliceLast n l).length = min n l.length := by
  unfold sliceLast
  rw [if_neg hn, List.length_drop]
  omega

theorem sliceLast_suffix_eq {α : Type} {n : Nat} (hn : n ≠ 0) {l₁ l₂ : List α}
    (h : l₁.IsSuffix l₂) (hlen : n ≤ l₁.length) : sliceLast n l₁ = sliceLast n l₂ := by
  obtain ⟨t, rfl⟩ := h
  unfold sliceLast
  rw [if_neg hn, if_neg hn, List.length_append]
  have harith : t.length + l₁.length - n = t.length + (l₁.length - n) := by omega
  rw [harith, List.drop_append]

theorem sliceLast_append_sliceLast {α : Type} {n : Nat} (hn : n ≠ 0) (l r : List α) :
    sliceLast n (sliceLast n l ++ r) = sliceLast n (l ++ r) := by
  by_cases hl : n ≤ l.length
  · have hsuf : (sliceLast n l ++ r).IsSuffix (l ++ r) := by
      obtain ⟨t, ht⟩ := sliceLast_suffix n l
      exact ⟨t, by rw [← List.append_assoc, ht]⟩
    have hlen : n ≤ (sliceLast n l ++ r).length := by
      rw [List.length_append, sliceLast_length hn]
      omega
    exact sliceLast_suffix_eq hn hsuf hlen
  · have : sliceLast n l = l := by
      unfold sliceLast
      rw [if_neg hn]
      have : l.length - n = 0 := by omega
      rw [this, List.drop_zero]
    rw [this]

theorem trimFold_eq_of_le {cap : Nat} (hcap : cap ≠ 0) :
    ∀ (msgs init : List ChatMessage), init.length ≤ cap →
      trimFold cap init msgs = sliceLast cap (init ++ msgs) := by
  intro msgs
  induction msgs with
  | nil =>
    intro init hinit
    unfold trimFold sliceLast
    rw [List.foldl_nil, List.append_nil, if_neg hcap]
    have : init.length - cap = 0 := by omega
    rw [this, List.drop_zero]
  | cons m rest ih =>
    intro init hinit
    have hstep : trimFold cap init (m :: rest)
        = trimFold cap
            (if (init ++ [m]).length > cap then sliceLast cap (init ++ [m]) else init ++ [m])
            rest := rfl
    rw [hstep]
    by_cases hover : (init ++ [m]).length > cap
    · rw [if_pos hover]
      have hlen : (sliceLast cap (init ++ [m])).length ≤ cap := by
        rw [sliceLast_length hcap]
        omega
      rw [ih _ hlen, sliceLast_append_sliceLast hcap]
      simp [List.append_assoc]
    · rw [if_neg hover]
      have hlen : (init ++ [m]).length ≤ cap := by omega
      rw [ih _ hlen]
      simp [List.append_assoc]

theorem trimFold_eq {cap : Nat} (hcap : cap ≠ 0) (init : List ChatMessage)
    {msgs : List ChatMessage} (hne : msgs ≠ []) :
    trimFold cap init msgs = sliceLast cap (init ++ msgs) := by
  obtain ⟨m, rest, rfl⟩ := List.exists_cons_of_ne_nil hne
  have hstep : trimFold cap init (m :: rest)
      = trimFold cap
          (if (init ++ [m]).length > cap then sliceLast cap (init ++ [m]) else init ++ [m])
          rest := rfl
  rw [hstep]
  by_cases hover : (init ++ [m]).length > cap
  · rw [if_pos hover]
    have hlen : (sliceLast cap (init ++ [m])).length ≤ cap := by
      rw [sliceLast_length hcap]
      omega
    rw [trimFold_eq_of_le hcap _ _ hlen, sliceLast_append_sliceLast hcap]
    simp [List.append_assoc]
  · rw [if_neg hover]
    have hlen : (init ++ [m]).length ≤ cap := by omega
    rw [trimFold_eq_of_le hcap _ _ hlen]
    simp [List.append_assoc]

theorem hasId_sublist_false {l₁ l₂ : List ChatMessage} {i : String}
    (hsub : l₁.Sublist l₂) (h : hasId l₂ i = false) : hasId l₁ i = false := by
  rw [hasId] at h ⊢
  by_contra hne
  have := List.any_eq_true.mp (Bool.of_not_eq_false hne)
  obtain ⟨a, ha, hp⟩ := this
  have : l₂.any (fun m => m.id = i) = true := List.any_eq_true.mpr ⟨a, hsub.mem ha, hp⟩
  rw [h] at this
  exact Bool.false_ne_true this

/-- Routing a message does not introduce ids other than the message's own. -/
theorem containsId_routeMessage_false {maxPerChat : Nat} {cd : ChatData} {m : ChatMessage}
    {i : String} (hne : m.id ≠ i) (h : cd.containsId i = false) :
    (routeMessage maxPerChat cd m).containsId i = false := by
  have h3 : hasId cd.messages i = false ∧ hasId cd.pendingMessages i = false ∧
      hasId cd.failedMessages i = false := by
    rw [ChatData.containsId] at h
    simpa [and_assoc] using h
  have happ : ∀ l : List ChatMessage, hasId l i = false → hasId (l ++ [m]) i = false := by
    intro l hl
    rw [hasId, List.any_append]
    rw [hasId] at hl
    simp [hl, hne]
  cases hst : m.status with
  | pending =>
    simp only [routeMessage, hst, ChatData.containsId]
    rw [h3.1, happ _ h3.2.1, h3.2.2]
    rfl
  | failed =>
    simp only [routeMessage, hst, ChatData.containsId]
    rw [h3.1, h3.2.1, happ _ h3.2.2]
    rfl
  | sent =>
    simp only [routeMessage, hst, ChatData.containsId]
    have hms : hasId (cd.messages ++ [m]) i = false := happ _ h3.1
    by_cases hover : maxPerChat < cd.messages.length + 1
    · have : hasId (sliceLast maxPerChat (cd.messages ++ [m])) i = false :=
        hasId_sublist_false (sliceLast_sublist _ _) hms
      simp [hover, this, h3.2.1, h3.2.2]
    · simp [hover, hms, h3.2.1, h3.2.2]

/-- The confirmed bucket under a run of fresh sent inserts evolves by the
push-and-trim fold, and the pending/failed buckets are untouched. -/
theorem addMessageRun_sent_spec (chatId : String) (now : Nat) :
    ∀ (msgs : List ChatMessage) (c : MessageCache), chatId ≠ "" →
      (∀ m ∈ msgs, m.status = .sent ∧ m.id ≠ "") →
      (∀ m ∈ msgs, (c.chatOf chatId).containsId m.id = false) →
      ((msgs.map (fun m => m.id)).Nodup) →
      ((c.addMessageRun chatId msgs now).chatOf chatId)
          = { c.chatOf chatId with
              messages := trimFold c.maxMessagesPerChat (c.chatOf chatId).messages msgs } ∧
      (c.addMessageRun chatId msgs now).maxMessagesPerChat = c.maxMessagesPerChat := by
  intro msgs
  induction msgs with
  | nil =>
    intro c hchat hall hfresh hnodup
    constructor
    · show c.chatOf chatId = _
      cases hcd : c.chatOf chatId
      rfl
    · rfl
  | cons m rest ih =>
    intro c hchat hall hfresh hnodup
    have hm := hall m (List.mem_cons_self m rest)
    have hfm := hfresh m (List.mem_cons_self m rest)
    obtain ⟨-, hcd', -, hmax'⟩ := addMessage_nondup_spec c chatId m "" now hchat hm.2 hfm
    have hrun : c.addMessageRun chatId (m :: rest) now
        = ((c.addMessage chatId m "" now).2).addMessageRun chatId rest now := rfl
    set c' := (c.addMessage chatId m "" now).2 with hc'
    have hids : m.id ∉ rest.map (fun x => x.id) := by
      have := hnodup
      rw [List.map_cons, List.nodup_cons] at this
      exact this.1
    have hfresh' : ∀ m' ∈ rest, (c'.chatOf chatId).containsId m'.id = false := by
      intro m' hm'
      rw [hcd']
      have hne : m.id ≠ m'.id := by
        intro hcontra
        exact hids (hcontra ▸ List.mem_map_of_mem (fun x => x.id) hm')
      exact containsId_routeMessage_false hne (hfresh m' (List.mem_cons_of_mem m hm'))
    have hnodup' : (rest.map (fun x => x.id)).Nodup := by
      have := hnodup
      rw [List.map_cons, List.nodup_cons] at this
      exact this.2
    obtain ⟨hrec, hmaxr⟩ := ih c' hchat (fun m' hm' => hall m' (List.mem_cons_of_mem m hm'))
      hfresh' hnodup'
    have hroute : routeMessage c.maxMessagesPerChat (c.chatOf chatId) m
        = { c.chatOf chatId with
            messages :=
              if ((c.chatOf chatId).messages ++ [m]).length > c.maxMessagesPerChat
              then sliceLast c.maxMessagesPerChat ((c.chatOf chatId).messages ++ [m])
              else (c.chatOf chatId).messages ++ [m] } := by
      simp only [routeMessage, hm.1]
    constructor
    · rw [hrun, hrec, hcd', hmax', hroute]
      rfl
    · rw [hrun, hmaxr, hmax']

/-- C5: after `N > cap` sequential `addMessage` calls with distinct fresh
nonempty ids and confirmed (`"sent"`) status, the confirmed bucket holds
exactly the last `cap` inserted messages (the `N-cap+1..N` most recent), its
size equals the cap, and the pending and failed buckets are untouched by the
trimming. -/
theorem addMessage_eviction_bound (c : MessageCache) (chatId : String)
    (msgs : List ChatMessage) (now cap : Nat)
    (hcap : c.maxMessagesPerChat = cap) (hcap1 : 1 ≤ cap) (hN : msgs.length > cap)
    (hchat : chatId ≠ "")
    (hall : ∀ m ∈ msgs, m.status = .sent ∧ m.id ≠ "")
    (hfresh : ∀ m ∈ msgs, (c.chatOf chatId).containsId m.id = false)
    (hnodup : (msgs.map (fun m => m.id)).Nodup) :
    ((c.addMessageRun chatId msgs now).chatOf chatId).messages
        = msgs.drop (msgs.length - cap) ∧
    ((c.addMessageRun chatId msgs now).chatOf chatId).messages.length = cap ∧
    ((c.addMessageRun chatId msgs now).chatOf chatId).pendingMessages
        = (c.chatOf chatId).pendingMessages ∧
    ((c.addMessageRun chatId msgs now).chatOf chatId).failedMessages
        = (c.chatOf chatId).failedMessages := by
  have hcap0 : cap ≠ 0 := by omega
  have hne : msgs ≠ [] := by
    intro hcontra
    rw [hcontra] at hN
    simp at hN
  obtain ⟨hrec, -⟩ := addMessageRun_sent_spec chatId now msgs c hchat hall hfresh hnodup
  have hmsgs : ((c.addMessageRun chatId msgs now).chatOf chatId).messages
      = sliceLast cap msgs := by
    rw [hrec]
    show trimFold c.maxMessagesPerChat (c.chatOf chatId).messages msgs = _
    rw [hcap, trimFold_eq hcap0 _ hne]
    exact (sliceLast_suffix_eq hcap0 (List.suffix_append _ msgs) (by omega)).symm
  refine ⟨?_, ?_, ?_, ?_⟩
  · rw [hmsgs]
    unfold sliceLast
    rw [if_neg hcap0]
  · rw [hmsgs, sliceLast_length hcap0]
    omega
  · rw [hrec]
  · rw [hrec]

/-- Witness for C5: three distinct sent messages into an empty cache with
cap 2 leave exactly the last two in the confirmed bucket. -/
theorem addMessage_eviction_bound_witness :
    (((emptyCache 2).addMessageRun "1_2"
        [mkMsg "a" false 0 .sent, mkMsg "b" false 1 .sent, mkMsg "c" false 2 .sent] 0).chatOf
        "1_2").messages = [mkMsg "b" false 1 .sent, mkMsg "c" false 2 .sent] := by
  have h := addMessage_eviction_bound (emptyCache 2) "1_2"
    [mkMsg "a" false 0 .sent, mkMsg "b" false 1 .sent, mkMsg "c" false 2 .sent] 0 2
    rfl (by decide) (by decide) (by decide) (by decide) (by decide) (by decide)
  rw [h.1]
  decide

/-- C3 (code bug): the id "m1" lives in the *failed* bucket of the
conversation, yet `updateMessageStatus` — which only searches
`pendingMessages` — returns `false` and leaves the entire cache state
unchanged, although the spec (and the `retryMessage` caller in
use-messageCache.ts, which re-transitions failed messages via
`updateMessageStatus(id, "pending")`) requires the transition to succeed. -/
theorem updateMessageStatus_failed_bucket_noop :
    (hasId ((((emptyCache 100).addMessage "1_2" (mkMsg "m1" false 0 .failed) "g" 0).2).chatOf
        "1_2").failedMessages "m1" = true) ∧
    ((((emptyCache 100).addMessage "1_2" (mkMsg "m1" false 0 .failed) "g" 0).2).updateMessageStatus
        "1_2" "m1" .pending MsgPatch.empty
      = (false, (((emptyCache 100).addMessage "1_2" (mkMsg "m1" false 0 .failed) "g" 0).2))) := by
  refine ⟨?_, ?_⟩ <;> decide

/-- C6: the canonical conversation id is order-independent:
`canonicalConversationId(A,B) = canonicalConversationId(B,A)` for every pair
of participant identities (with `none` modelling a missing/NaN identity),
and the `A = B` edge case yields the same-id self chat `"a_a"`. -/
theorem deriveChatId_comm :
    (∀ a b : Option Int, deriveChatId a b = deriveChatId b a) ∧
    (∀ a b : Int, canonicalChatId a b = canonicalChatId b a) ∧
    (∀ a : Int, deriveChatId (some a) (some a)
        = some (toString a ++ "_" ++ toString a)) := by
  refine ⟨?_, ?_, ?_⟩
  · intro a b
    cases a <;> cases b <;>
      simp [deriveChatId, canonicalChatId, min_comm, max_comm]
  · intro a b
    simp [canonicalChatId, min_comm, max_comm]
  · intro a
    simp [deriveChatId, canonicalChatId]

/-- C7: `sendMessage` transmits the payload on the wire if and only if the
underlying socket exists and is OPEN; in every other state it signals the
delivery error `"WebSocket is not connected"` to the caller and leaves the
transport state unchanged (in particular, nothing is queued). -/
theorem sendMessage_iff_open (t : Transport) (msg : String) :
    (t.isOpen = true →
      sendMessage t msg = (Except.ok true, { t with wire := t.wire ++ [msg] })) ∧
    (t.isOpen = false →
      sendMessage t msg = (Except.error "WebSocket is not connected", t)) := by
  cases ht : t.socket with
  | none =>
    refine ⟨fun h => ?_, fun _ => ?_⟩
    · simp [Transport.isOpen, ht] at h
    · simp [sendMessage, ht]
  | some s =>
    by_cases hr : s.readyState = WebSocketOPEN
    · refine ⟨fun _ => ?_, fun h => ?_⟩
      · simp [sendMessage, ht, hr]
      · simp [Transport.isOpen, ht, hr] at h
    · refine ⟨fun h => ?_, fun _ => ?_⟩
      · simp [Transport.isOpen, ht, hr] at h
      · simp [sendMessage, ht, hr]

/-- Witness for C7: a concrete open socket transmits; a concrete missing
socket yields the delivery error and an unchanged state. -/
theorem sendMessage_iff_open_witness :
    sendMessage ⟨some ⟨1⟩, []⟩ "f" = (Except.ok true, ⟨some ⟨1⟩, ["f"]⟩) ∧
    sendMessage ⟨none, []⟩ "f" = (Except.error "WebSocket is not connected", ⟨none, []⟩) :=
  ⟨(sendMessage_iff_open ⟨some ⟨1⟩, []⟩ "f").1 (by decide),
   (sendMessage_iff_open ⟨none, []⟩ "f").2 (by decide)⟩

/-- C8: the inbound-frame fan-out applies every registered handler to the
frame — a handler that throws (`Except.error`) has its exception caught and
collected in the log, and all remaining handlers still run; the loop is a
total function, so it never crashes on a handler exception. -/
theorem fanOut_isolates_handlers {E : Type}
    (hs : List (String → Except E Unit)) (msg : String) :
    fanOut hs msg = hs.map (fun h => h msg) ∧
    (fanOut hs msg).length = hs.length ∧
    fanOutLog hs msg = (hs.map (fun h => h msg)).filterMap (fun r =>
      match r with
      | .error e => some e
      | .ok _ => none) := by
  have h1 : fanOut hs msg = hs.map (fun h => h msg) := by
    induction hs with
    | nil => rfl
    | cons h rest ih => cases hh : h msg <;> simp [fanOut, hh, ih]
  refine ⟨h1, by rw [h1]; simp, by rw [fanOutLog, h1]⟩

/-- C4: on consecutive abnormal closes (code ≠ 1000, not manual, identity
present) the scheduled reconnect delay is `BASE_RECONNECT_INTERVAL * 2 ^
attempt`: with the counter at 0, 1, 2 the three successive delays are
base, 2·base and 4·base; once the counter would exceed
`MAX_RECONNECT_ATTEMPTS` (5), no timer is scheduled and the terminal
"Maximum reconnection attempts reached" error is surfaced. -/
theorem onCloseEvent_backoff (s : ConnState) (code : Nat) (hcode : code ≠ 1000) :
    (s.reconnectAttempts < MAX_RECONNECT_ATTEMPTS →
      (onCloseEvent s code false true).reconnectTimer
          = some (BASE_RECONNECT_INTERVAL * 2 ^ s.reconnectAttempts) ∧
      (onCloseEvent s code false true).reconnectAttempts = s.reconnectAttempts + 1) ∧
    (s.reconnectAttempts = 0 →
      (onCloseEvent s code false true).reconnectTimer
          = some BASE_RECONNECT_INTERVAL ∧
      (onCloseEvent (onCloseEvent s code false true) code false true).reconnectTimer
          = some (2 * BASE_RECONNECT_INTERVAL) ∧
      (onCloseEvent (onCloseEvent (onCloseEvent s code false true) code false true)
          code false true).reconnectTimer = some (4 * BASE_RECONNECT_INTERVAL)) ∧
    (MAX_RECONNECT_ATTEMPTS ≤ s.reconnectAttempts → s.reconnectTimer = none →
      (onCloseEvent s code false true).reconnectTimer = none ∧
      (onCloseEvent s code false true).error
          = some "Maximum reconnection attempts reached") := by
  refine ⟨fun hlt => ?_, fun h0 => ?_, fun hge htimer => ?_⟩
  · have : s.reconnectAttempts + 1 ≤ MAX_RECONNECT_ATTEMPTS := hlt
    simp [onCloseEvent, hcode, this]
  · simp [onCloseEvent, hcode, h0, MAX_RECONNECT_ATTEMPTS, BASE_RECONNECT_INTERVAL]
  · have : ¬ (s.reconnectAttempts + 1 ≤ MAX_RECONNECT_ATTEMPTS) := by omega
    simp [onCloseEvent, hcode, this, htimer]

/-- Witness for C4: from a concrete connected state with counter 0 the first
scheduled delay is 1500 ms; from a concrete state with counter 5 and no
outstanding timer, the close schedules nothing and surfaces the terminal
error. -/
theorem onCloseEvent_backoff_witness :
    (onCloseEvent ⟨.connected, none, 0, none⟩ 1006 false true).reconnectTimer
        = some 1500 ∧
    (onCloseEvent ⟨.disconnected, none, 5, none⟩ 1006 false true).reconnectTimer
        = none ∧
    (onCloseEvent ⟨.disconnected, none, 5, none⟩ 1006 false true).error
        = some "Maximum reconnection attempts reached" := by
  refine ⟨?_, ?_, ?_⟩
  · have h := ((onCloseEvent_backoff ⟨.connected, none, 0, none⟩ 1006 (by decide)).1
      (by decide)).1
    simpa using h
  · exact ((onCloseEvent_backoff ⟨.disconnected, none, 5, none⟩ 1006 (by decide)).2.2
      (by decide) rfl).1
  · exact ((onCloseEvent_backoff ⟨.disconnected, none, 5, none⟩ 1006 (by decide)).2.2
      (by decide) rfl).2

/-! ### Dedup-invariant lemmas (C2) -/

theorem hasId_true_iff {l : List ChatMessage} {i : String} :
    hasId l i = true ↔ i ∈ l.map (fun m => m.id) := by
  rw [hasId, List.any_eq_true]
  simp [List.mem_map]

theorem containsId_false_iff {cd : ChatData} {i : String} :
    cd.containsId i = false ↔ i ∉ cd.allIds := by
  rw [ChatData.containsId, ChatData.allIds]
  constructor
  · intro h hmem
    have h3 := h
    simp only [Bool.or_eq_false_iff] at h3
    rcases List.mem_append.mp hmem with hmp | hf
    · rcases List.mem_append.mp hmp with ha | hp
      · have := hasId_true_iff.mpr ha
        rw [h3.1.1] at this
        exact Bool.false_ne_true this
      · have := hasId_true_iff.mpr hp
        rw [h3.1.2] at this
        exact Bool.false_ne_true this
    · have := hasId_true_iff.mpr hf
      rw [h3.2] at this
      exact Bool.false_ne_true this
  · intro h
    have hA : hasId cd.messages i = false := by
      cases hh : hasId cd.messages i
      · rfl
      · exact absurd (List.mem_append.mpr (Or.inl (List.mem_append.mpr
          (Or.inl (hasId_true_iff.mp hh))))) h
    have hP : hasId cd.pendingMessages i = false := by
      cases hh : hasId cd.pendingMessages i
      · rfl
      · exact absurd (List.mem_append.mpr (Or.inl (List.mem_append.mpr
          (Or.inr (hasId_true_iff.mp hh))))) h
    have hF : hasId cd.failedMessages i = false := by
      cases hh : hasId cd.failedMessages i
      · rfl
      · exact absurd (List.mem_append.mpr (Or.inr (hasId_true_iff.mp hh))) h
    rw [hA, hP, hF]
    rfl

theorem perm_insert_first {α : Type} (A P F : List α) (i : α) :
    ((A ++ [i]) ++ P ++ F).Perm (i :: (A ++ P ++ F)) := by
  have h1 : (A ++ [i]) ++ P ++ F = A ++ i :: (P ++ F) := by
    simp [List.append_assoc]
  rw [h1]
  have h2 := @List.perm_middle _ i A (P ++ F)
  have h3 : i :: (A ++ (P ++ F)) = i :: (A ++ P ++ F) := by
    simp [List.append_assoc]
  rw [h3] at h2
  exact h2

theorem perm_insert_mid {α : Type} (A P F : List α) (i : α) :
    (A ++ (P ++ [i]) ++ F).Perm (i :: (A ++ P ++ F)) := by
  have h1 : A ++ (P ++ [i]) ++ F = (A ++ P) ++ i :: F := by
    simp [List.append_assoc]
  rw [h1]
  have h2 := @List.perm_middle _ i (A ++ P) F
  simpa [List.append_assoc] using h2

theorem perm_insert_last {α : Type} (A P F : List α) (i : α) :
    (A ++ P ++ (F ++ [i])).Perm (i :: (A ++ P ++ F)) := by
  have h1 : A ++ P ++ (F ++ [i]) = (A ++ P ++ F) ++ [i] := by
    simp [List.append_assoc]
  rw [h1]
  exact List.perm_append_singleton i _

theorem nodup_reinsert {α : Type} {A P F P' : List α} {i : α}
    (hP : P.Perm (i :: P')) (h : (A ++ P ++ F).Nodup) :
    (i :: (A ++ P' ++ F)).Nodup := by
  have p1 : (A ++ P ++ F).Perm (A ++ (i :: P') ++ F) := (hP.append_left A).append_right F
  have p2 : (A ++ (i :: P') ++ F).Perm ((i :: (A ++ P')) ++ F) :=
    (@List.perm_middle _ i A P').append_right F
  have h1 : (A ++ P ++ F).Perm (i :: (A ++ P' ++ F)) := p1.trans p2
  exact h1.nodup_iff.mp h

/-- Routing a fresh-id message preserves pairwise distinctness of the ids
across the three buckets. -/
theorem nodup_allIds_routeMessage {maxPerChat : Nat} {cd : ChatData} {m : ChatMessage}
    (hfresh : cd.containsId m.id = false) (hinv : cd.allIds.Nodup) :
    (routeMessage maxPerChat cd m).allIds.Nodup := by
  have hni : m.id ∉ cd.allIds := containsId_false_iff.mp hfresh
  have hcons : (m.id :: cd.allIds).Nodup := List.nodup_cons.mpr ⟨hni, hinv⟩
  cases hst : m.status with
  | pending =>
    have heq : (routeMessage maxPerChat cd m).allIds
        = cd.messages.map (fun x => x.id)
          ++ (cd.pendingMessages.map (fun x => x.id) ++ [m.id])
          ++ cd.failedMessages.map (fun x => x.id) := by
      simp [routeMessage, hst, ChatData.allIds]
    rw [heq]
    exact (perm_insert_mid _ _ _ _).nodup_iff.mpr hcons
  | failed =>
    have heq : (routeMessage maxPerChat cd m).allIds
        = cd.messages.map (fun x => x.id) ++ cd.pendingMessages.map (fun x => x.id)
          ++ (cd.failedMessages.map (fun x => x.id) ++ [m.id]) := by
      simp [routeMessage, hst, ChatData.allIds]
    rw [heq]
    exact (perm_insert_last _ _ _ _).nodup_iff.mpr hcons
  | sent =>
    have hsub : (routeMessage maxPerChat cd m).messages.Sublist (cd.messages ++ [m]) := by
      simp only [routeMessage, hst]
      by_cases hover : maxPerChat < cd.messages.length + 1
      · simp only [List.length_append, List.length_singleton, gt_iff_lt, hover, if_true]
        exact sliceLast_sublist _ _
      · simp only [List.length_append, List.length_singleton, gt_iff_lt, hover, if_false]
        exact List.Sublist.refl _
    have hidsub : (routeMessage maxPerChat cd m).messages.map (fun x => x.id)
        |>.Sublist (cd.messages.map (fun x => x.id) ++ [m.id]) := by
      have h2 := hsub.map (fun x => x.id)
      simp only [List.map_append, List.map_cons, List.map_nil] at h2
      exact h2
    have hbig : ((cd.messages.map (fun x => x.id) ++ [m.id])
        ++ cd.pendingMessages.map (fun x => x.id)
        ++ cd.failedMessages.map (fun x => x.id)).Nodup :=
      (perm_insert_first _ _ _ _).nodup_iff.mpr hcons
    have hpend : (routeMessage maxPerChat cd m).pendingMessages = cd.pendingMessages := by
      simp [routeMessage, hst]
    have hfail : (routeMessage maxPerChat cd m).failedMessages = cd.failedMessages := by
      simp [routeMessage, hst]
    have hsuball : (routeMessage maxPerChat cd m).allIds.Sublist
        ((cd.messages.map (fun x => x.id) ++ [m.id])
          ++ cd.pendingMessages.map (fun x => x.id)
          ++ cd.failedMessages.map (fun x => x.id)) := by
      rw [ChatData.allIds, hpend, hfail]
      exact (hidsub.append_right _).append_right _
    exact hbig.sublist hsuball

theorem loadChat_dedupInv {c : MessageCache} {chatId : String} {cd : ChatData}
    (hinv : c.dedupInv) (h : c.loadChat chatId = some cd) : cd.allIds.Nodup := by
  unfold MessageCache.loadChat at h
  cases hm : lookupA c.memoryCache chatId with
  | some cd' =>
    rw [hm] at h
    simp only [Option.some.injEq] at h
    rw [← h]
    exact hinv.1 _ (lookupA_mem hm)
  | none =>
    rw [hm] at h
    exact hinv.2 _ (lookupA_mem h)

theorem chatOf_dedupInv {c : MessageCache} {chatId : String} (hinv : c.dedupInv) :
    (c.chatOf chatId).allIds.Nodup := by
  unfold MessageCache.chatOf
  cases h : c.loadChat chatId with
  | some cd => exact loadChat_dedupInv hinv h
  | none => simp [emptyChatData, ChatData.allIds]

theorem dedupInv_setMemory {c : MessageCache} {chatId : String} {cd : ChatData}
    (hinv : c.dedupInv) (hcd : cd.allIds.Nodup) :
    MessageCache.dedupInv { c with memoryCache := setA c.memoryCache chatId cd } := by
  constructor
  · intro e he
    rcases mem_setA he with h | h
    · exact hinv.1 e h
    · rw [h]
      exact hcd
  · exact hinv.2

theorem dedupInv_updateChatMetadata {c : MessageCache} {chatId : String} {p : MetaPatch}
    {now : Nat} (hinv : c.dedupInv) : (c.updateChatMetadata chatId p now).dedupInv := hinv

theorem dedupInv_save {c : MessageCache} {chatId : String} (hinv : c.dedupInv) :
    (c.saveChatToStorage chatId).dedupInv := by
  unfold MessageCache.saveChatToStorage
  cases hm : lookupA c.memoryCache chatId with
  | none => exact hinv
  | some cd =>
    have hcd : cd.allIds.Nodup := hinv.1 _ (lookupA_mem hm)
    constructor
    · exact hinv.1
    · intro e he
      rcases mem_setA he with h | h
      · exact hinv.2 e h
      · rw [h]
        exact hcd

theorem dedupInv_addMessage (c : MessageCache) (chatId : String) (msg : ChatMessage)
    (g : String) (now : Nat) (hinv : c.dedupInv) :
    ((c.addMessage chatId msg g now).2).dedupInv := by
  unfold MessageCache.addMessage
  by_cases hchat : chatId = ""
  · rw [if_pos hchat]
    exact hinv
  · rw [if_neg hchat]
    unfold MessageCache.addMessageCore
    set m : ChatMessage := { msg with id := if msg.id = "" then g else msg.id } with hm
    by_cases hdup : (c.chatOf chatId).containsId m.id = true
    · simp only [hdup, if_true]
      exact hinv
    · have hdup' : (c.chatOf chatId).containsId m.id = false := by
        cases h : (c.chatOf chatId).containsId m.id
        · rfl
        · exact absurd h hdup
      simp only [hdup', Bool.false_eq_true, if_false]
      exact dedupInv_save (dedupInv_updateChatMetadata (dedupInv_setMemory hinv
        (nodup_allIds_routeMessage hdup' (chatOf_dedupInv hinv))))

theorem extractById_perm {i : String} :
    ∀ {l : List ChatMessage} {x : ChatMessage} {l' : List ChatMessage},
      extractById i l = some (x, l') → l.Perm (x :: l') ∧ x.id = i := by
  intro l
  induction l with
  | nil =>
    intro x l' h
    simp [extractById] at h
  | cons m rest ih =>
    intro x l' h
    rw [extractById] at h
    by_cases hm : m.id = i
    · rw [if_pos hm] at h
      simp only [Option.some.injEq, Prod.mk.injEq] at h
      rw [← h.1, ← h.2]
      exact ⟨List.Perm.refl _, hm⟩
    · rw [if_neg hm] at h
      cases hr : extractById i rest with
      | none =>
        rw [hr] at h
        simp at h
      | some pr =>
        obtain ⟨y, rest'⟩ := pr
        rw [hr] at h
        simp only [Option.some.injEq, Prod.mk.injEq] at h
        obtain ⟨hperm, hy⟩ := ih hr
        rw [← h.1, ← h.2]
        exact ⟨(hperm.cons m).trans (List.Perm.swap y m rest'), hy⟩

/-- The success path of `updateMessageStatus` as an explicit state equation. -/
theorem updateMessageStatus_eq (c : MessageCache) (chatId mid : String) (st : MsgStatus)
    (p : MsgPatch) {cd : ChatData} {m0 : ChatMessage} {pend' : List ChatMessage}
    (hload : c.loadChat chatId = some cd)
    (hx : extractById mid cd.pendingMessages = some (m0, pend')) :
    c.updateMessageStatus chatId mid st p
      = (true, (({ c with memoryCache := setA c.memoryCache chatId (movePending cd m0 pend' st p) }
          : MessageCache)).saveChatToStorage chatId) := by
  unfold MessageCache.updateMessageStatus
  simp only [hload, hx]

/-- The failure paths of `updateMessageStatus` leave the state unchanged. -/
theorem updateMessageStatus_fail (c : MessageCache) (chatId mid : String) (st : MsgStatus)
    (p : MsgPatch) :
    (c.loadChat chatId = none → c.updateMessageStatus chatId mid st p = (false, c)) ∧
    (∀ cd : ChatData, c.loadChat chatId = some cd →
      extractById mid cd.pendingMessages = none →
      c.updateMessageStatus chatId mid st p = (false, c)) := by
  constructor
  · intro hload
    unfold MessageCache.updateMessageStatus
    simp only [hload]
  · intro cd hload hx
    unfold MessageCache.updateMessageStatus
    simp only [hload, hx]

theorem dedupInv_movePending {cd : ChatData} {m0 : ChatMessage} {mid : String}
    {pend' : List ChatMessage} {st : MsgStatus} {p : MsgPatch} (hp : p.id = none)
    (hcd : cd.allIds.Nodup)
    (hx : extractById mid cd.pendingMessages = some (m0, pend')) :
    (movePending cd m0 pend' st p).allIds.Nodup := by
  obtain ⟨hperm, hid0⟩ := extractById_perm hx
  have hpids : (cd.pendingMessages.map (fun x => x.id)).Perm
      (m0.id :: pend'.map (fun x => x.id)) := by
    simpa using hperm.map (fun x => x.id)
  have hm1id : (applyPatch { m0 with status := st } p).id = m0.id := by
    simp [applyPatch, hp]
  have hcons : (m0.id :: (cd.messages.map (fun x => x.id)
      ++ pend'.map (fun x => x.id) ++ cd.failedMessages.map (fun x => x.id))).Nodup :=
    nodup_reinsert hpids hcd
  unfold movePending
  by_cases hst : st = MsgStatus.sent
  · rw [if_pos hst]
    have heq : ({ cd with pendingMessages := pend', messages := cd.messages ++ [applyPatch { m0 with status := st } p] } : ChatData).allIds
        = (cd.messages.map (fun x => x.id) ++ [m0.id]) ++ pend'.map (fun x => x.id)
          ++ cd.failedMessages.map (fun x => x.id) := by
      simp [ChatData.allIds, hm1id]
    rw [heq]
    exact (perm_insert_first _ _ _ _).nodup_iff.mpr hcons
  · rw [if_neg hst]
    have heq : ({ cd with pendingMessages := pend', failedMessages := cd.failedMessages ++ [applyPatch { m0 with status := st } p] } : ChatData).allIds
        = cd.messages.map (fun x => x.id) ++ pend'.map (fun x => x.id)
          ++ (cd.failedMessages.map (fun x => x.id) ++ [m0.id]) := by
      simp [ChatData.allIds, hm1id]
    rw [heq]
    exact (perm_insert_last _ _ _ _).nodup_iff.mpr hcons

theorem dedupInv_updateMessageStatus (c : MessageCache) (chatId mid : String)
    (st : MsgStatus) (p : MsgPatch) (hp : p.id = none) (hinv : c.dedupInv) :
    ((c.updateMessageStatus chatId mid st p).2).dedupInv := by
  cases hload : c.loadChat chatId with
  | none =>
    rw [(updateMessageStatus_fail c chatId mid st p).1 hload]
    exact hinv
  | some cd =>
    cases hx : extractById mid cd.pendingMessages with
    | none =>
      rw [(updateMessageStatus_fail c chatId mid st p).2 cd hload hx]
      exact hinv
    | some pr =>
      obtain ⟨m0, pend'⟩ := pr
      rw [updateMessageStatus_eq c chatId mid st p hload hx]
      have hcd : cd.allIds.Nodup := loadChat_dedupInv hinv hload
      exact dedupInv_save (dedupInv_setMemory hinv (dedupInv_movePending hp hcd hx))

theorem dedupInv_markChatAsRead (c : MessageCache) (chatId : String) (now : Nat)
    (hinv : c.dedupInv) : (c.markChatAsRead chatId now).dedupInv := hinv

theorem dedupInv_clearChatMemory (c : MessageCache) (chatId : String)
    (hinv : c.dedupInv) : (c.clearChatMemory chatId).dedupInv := by
  unfold MessageCache.clearChatMemory
  cases hm : lookupA c.memoryCache chatId with
  | none => exact hinv
  | some cd =>
    have h1 : (c.saveChatToStorage chatId).dedupInv := dedupInv_save hinv
    constructor
    · intro e he
      exact h1.1 e (mem_eraseA he)
    · exact h1.2

theorem dedupInv_preloadChat (c : MessageCache) (chatId : String)
    (hinv : c.dedupInv) : (c.preloadChat chatId).dedupInv := by
  unfold MessageCache.preloadChat
  cases hm : lookupA c.memoryCache chatId with
  | some cd => exact hinv
  | none =>
    cases hs : lookupA c.storage chatId with
    | none => exact hinv
    | some cd => exact dedupInv_setMemory hinv (hinv.2 _ (lookupA_mem hs))

/-- Pairwise-distinct ids across the buckets imply the claimed
at-most-one-bucket property. -/
theorem atMostOneBucket_of_nodup {cd : ChatData} (h : cd.allIds.Nodup) :
    cd.atMostOneBucket := by
  intro i
  rw [ChatData.allIds] at h
  have h1 : (cd.messages.map (fun m => m.id) ++ cd.pendingMessages.map (fun m => m.id)).Nodup :=
    List.Nodup.of_append_left h
  have hdisj2 := List.disjoint_of_nodup_append h
  have hdisj1 := List.disjoint_of_nodup_append h1
  refine ⟨?_, ?_, ?_⟩
  · rintro ⟨ha, hb⟩
    exact hdisj1 (hasId_true_iff.mp ha) (hasId_true_iff.mp hb)
  · rintro ⟨ha, hb⟩
    exact hdisj2 (List.mem_append.mpr (Or.inl (hasId_true_iff.mp ha))) (hasId_true_iff.mp hb)
  · rintro ⟨ha, hb⟩
    exact hdisj2 (List.mem_append.mpr (Or.inr (hasId_true_iff.mp ha))) (hasId_true_iff.mp hb)

/-- C2 (amended): the per-conversation invariant "each message id lives in at
most one of the three buckets" (indeed: all bucket ids pairwise distinct) is
preserved by `addMessage`, by `updateMessageStatus` whenever the merged patch
does not rewrite the message id, and by `markChatAsRead`, `clearChatMemory`
and `preloadChat`; `addMessages` is excluded — it deduplicates only against
the confirmed bucket and can duplicate an id already in pending/failed. -/
theorem cacheDedupInv_preserved (c : MessageCache) (hinv : c.dedupInv) :
    (∀ (chatId : String) (msg : ChatMessage) (g : String) (now : Nat),
      ((c.addMessage chatId msg g now).2).dedupInv) ∧
    (∀ (chatId mid : String) (st : MsgStatus) (p : MsgPatch), p.id = none →
      ((c.updateMessageStatus chatId mid st p).2).dedupInv) ∧
    (∀ (chatId : String) (now : Nat), (c.markChatAsRead chatId now).dedupInv) ∧
    (∀ chatId : String, (c.clearChatMemory chatId).dedupInv) ∧
    (∀ chatId : String, (c.preloadChat chatId).dedupInv) ∧
    (∀ chatId : String, (c.chatOf chatId).atMostOneBucket) :=
  ⟨fun chatId msg g now => dedupInv_addMessage c chatId msg g now hinv,
   fun chatId mid st p hp => dedupInv_updateMessageStatus c chatId mid st p hp hinv,
   fun chatId now => dedupInv_markChatAsRead c chatId now hinv,
   fun chatId => dedupInv_clearChatMemory c chatId hinv,
   fun chatId => dedupInv_preloadChat c chatId hinv,
   fun _ => atMostOneBucket_of_nodup (chatOf_dedupInv hinv)⟩

/-- Witness for C2 (amended): the empty cache satisfies the invariant, and
concrete `addMessage` / `updateMessageStatus` calls preserve it. -/
theorem cacheDedupInv_preserved_witness :
    MessageCache.dedupInv
      (((emptyCache 100).addMessage "1_2" (mkMsg "w" false 0 .pending) "g" 0).2) ∧
    MessageCache.dedupInv
      (((emptyCache 100).updateMessageStatus "1_2" "w" .sent MsgPatch.empty).2) ∧
    ((emptyCache 100).chatOf "1_2").atMostOneBucket :=
  ⟨(cacheDedupInv_preserved (emptyCache 100)
      (by constructor <;> intro e he <;> cases he)).1 "1_2" (mkMsg "w" false 0 .pending) "g" 0,
   (cacheDedupInv_preserved (emptyCache 100)
      (by constructor <;> intro e he <;> cases he)).2.1 "1_2" "w" .sent MsgPatch.empty rfl,
   (cacheDedupInv_preserved (emptyCache 100)
      (by constructor <;> intro e he <;> cases he)).2.2.2.2.2 "1_2"⟩

/-- C2 counterexample: starting from the empty cache, `addMessage` places id
"x" into the pending bucket of conversation "c"; the history merge
`addMessages` then inserts a message with the *same id* into the confirmed
bucket (its duplicate filter only consults the confirmed bucket), leaving id
"x" in two buckets at once — so not every cache operation preserves the
claimed invariant. -/
theorem cacheDedupInv_counterexample :
    hasId ((((((emptyCache 100).addMessage "c" (mkMsg "x" false 0 .pending) "g" 0).2).addMessages
        "c" [mkMsg "x" false 1 .sent] true (fun _ => "h") 1).2).chatOf "c").messages "x"
      = true ∧
    hasId ((((((emptyCache 100).addMessage "c" (mkMsg "x" false 0 .pending) "g" 0).2).addMessages
        "c" [mkMsg "x" false 1 .sent] true (fun _ => "h") 1).2).chatOf "c").pendingMessages "x"
      = true ∧
    ((((emptyCache 100).addMessage "c" (mkMsg "x" false 0 .pending) "g" 0).2).addMessages
        "c" [mkMsg "x" false 1 .sent] true (fun _ => "h") 1).1 = true := by
  refine ⟨?_, ?_, ?_⟩ <;> decide

end Affinity
